import Mathlib

/-!
Shallow embedding of the caching layer of the tezos-baking-portal repository:
the `CacheManager` class (in-memory `Map` plus a localStorage mirror),
the fetch-and-cache orchestrator `cachedTzktFetch` / `fetchAndCache` /
`getBakersStats` from `src/lib/tzkt-api-cached.ts`, and the state-update
discipline of the `useBakerDetails` hook from
`src/hooks/use-tzkt-data-cached.ts`.

Modelling conventions:
* A JS `Map` is an insertion-ordered association list `List (String × α)`:
  `Map.set` on an existing key replaces the value in place, on a fresh key
  it appends; iteration follows list order, as in the source.
* `localStorage` is a second association list; the fixed key text placed
  before each stored key in the source is a bijection on keys, so the
  mirror is modelled keyed by the bare cache key.  The JSON round-trip is
  the identity on the modelled payloads.
* `Date.now()` is an explicit `now : Nat` argument (milliseconds).
  JS computes `now - timestamp` with possibly negative results; since every
  stored `timestamp` is a past `Date.now()` value the difference is
  non-negative, and truncated `Nat` subtraction agrees with JS on the
  comparison `now - timestamp > ttl` in all cases (a negative difference
  and a truncated-to-zero difference are both `≤ ttl`).
* Remote HTTP calls are environment parameters: each modelled invocation
  receives the outcome (`Except String T`) the network would produce.
* JS truthiness of a cached payload (`if (cached)`) is a parameter
  `truthy : T → Bool` applied to the payload; `null` (our `none`) is falsy.
-/

set_option autoImplicit false

namespace TzktCache

/-- `CacheEntry<T>` from the cache manager source. -/
structure CacheEntry (T : Type) where
  data : T
  timestamp : Nat
  ttl : Nat
  key : String
deriving DecidableEq, Repr

/-- `CacheOptions`: `ttl` is `Option` because the field is optional in TS
(`undefined` and `0` are both falsy in `options.ttl || defaultTTL`);
the two Boolean flags default to `undefined` = `false` at call sites. -/
structure CacheOptions where
  ttl : Option Nat
  persistToLocalStorage : Bool
  staleWhileRevalidate : Bool
deriving DecidableEq, Repr

/-- The whole mutable state of the `CacheManager` singleton:
the in-memory `Map`, the localStorage mirror, and the two counters. -/
structure CacheState (T : Type) where
  cache : List (String × CacheEntry T)
  localStore : List (String × CacheEntry T)
  hitCount : Nat
  missCount : Nat
deriving DecidableEq, Repr

/-- `private readonly defaultTTL = 5 * 60 * 1000`. -/
def defaultTTL : Nat := 5 * 60 * 1000

/-- `private readonly maxSize = 100`. -/
def maxSize : Nat := 100

/-- `options.ttl || this.defaultTTL`: `undefined` and `0` are falsy. -/
def ttlOrDefault (o : Option Nat) : Nat :=
  match o with
  | some t => if t = 0 then defaultTTL else t
  | none => defaultTTL

/-- `Map.prototype.get`. -/
def mapGet {T : Type} (l : List (String × T)) (k : String) : Option T :=
  (l.find? (fun kv => kv.1 == k)).map Prod.snd

/-- `Map.prototype.has` (used to decide replace-in-place versus append). -/
def mapContains {T : Type} (l : List (String × T)) (k : String) : Bool :=
  l.any (fun kv => kv.1 == k)

/-- `Map.prototype.set`: replace in place when the key is present
(keeping its insertion position), append otherwise. -/
def mapSet {T : Type} (l : List (String × T)) (k : String) (v : T) :
    List (String × T) :=
  if mapContains l k then
    l.map (fun kv => if kv.1 == k then (k, v) else kv)
  else
    l ++ [(k, v)]

/-- `Map.prototype.delete`. -/
def mapDelete {T : Type} (l : List (String × T)) (k : String) :
    List (String × T) :=
  l.filter (fun kv => kv.1 != k)

namespace CacheManager

variable {T : Type}

/-- `isExpired(entry)`: `Date.now() - entry.timestamp > entry.ttl`. -/
def isExpired (now : Nat) (e : CacheEntry T) : Bool :=
  now - e.timestamp > e.ttl

/-- `get(key, options)`, returning the produced value and the state after
the call (the call can promote a stored entry into memory or delete an
expired entry from both tiers). -/
def get (s : CacheState T) (now : Nat) (key : String) (o : CacheOptions) :
    Option T × CacheState T :=
  match mapGet s.cache key with
  | none =>
    if o.persistToLocalStorage then
      match mapGet s.localStore key with
      | some stored =>
        if isExpired now stored then (none, s)
        else (some stored.data, { s with cache := mapSet s.cache key stored })
      | none => (none, s)
    else (none, s)
  | some entry =>
    if isExpired now entry then
      if o.staleWhileRevalidate then (some entry.data, s)
      else
        (none,
         { s with
             cache := mapDelete s.cache key,
             localStore := mapDelete s.localStore key })
    else (some entry.data, s)

/-- The fold inside `evictOldest`: starting from
`oldestKey = ""`, `oldestTime = Date.now()`, keep the entry with the
strictly smallest timestamp seen so far. -/
def findOldest (now : Nat) (l : List (String × CacheEntry T)) : String × Nat :=
  l.foldl
    (fun acc kv => if kv.2.timestamp < acc.2 then (kv.1, kv.2.timestamp) else acc)
    ("", now)

/-- `evictOldest()`: delete the found key from both tiers, but only when
`oldestKey` is truthy (a non-empty string). -/
def evictOldest (s : CacheState T) (now : Nat) : CacheState T :=
  let r := findOldest now s.cache
  if r.1 = "" then s
  else
    { s with
        cache := mapDelete s.cache r.1,
        localStore := mapDelete s.localStore r.1 }

/-- `set(key, data, options)`. -/
def set (s : CacheState T) (now : Nat) (key : String) (data : T)
    (o : CacheOptions) : CacheState T :=
  let entry : CacheEntry T := ⟨data, now, ttlOrDefault o.ttl, key⟩
  let s1 := if s.cache.length ≥ maxSize then evictOldest s now else s
  let s2 := { s1 with cache := mapSet s1.cache key entry }
  if o.persistToLocalStorage then
    { s2 with localStore := mapSet s2.localStore key entry }
  else s2

/-- `invalidate(key)`: unconditional removal from both tiers. -/
def invalidate (s : CacheState T) (key : String) : CacheState T :=
  { s with
      cache := mapDelete s.cache key,
      localStore := mapDelete s.localStore key }

/-- `invalidatePattern(pattern)`.  The compiled regular expression is
abstracted to its key predicate `matchesKey` (`regex.test`).  The source
first collects every in-memory key satisfying the pattern, then deletes
each collected key from both tiers. -/
def invalidatePattern (s : CacheState T) (matchesKey : String → Bool) :
    CacheState T :=
  let keysToDelete := (s.cache.map Prod.fst).filter matchesKey
  keysToDelete.foldl
    (fun acc k =>
      { acc with
          cache := mapDelete acc.cache k,
          localStore := mapDelete acc.localStore k })
    s

/-- `clear()`: empty the in-memory map and drop every mirrored entry. -/
def clear (s : CacheState T) : CacheState T :=
  { s with cache := [], localStore := [] }

/-- `recordHit()`. -/
def recordHit (s : CacheState T) : CacheState T :=
  { s with hitCount := s.hitCount + 1 }

/-- `recordMiss()`. -/
def recordMiss (s : CacheState T) : CacheState T :=
  { s with missCount := s.missCount + 1 }

/-- `calculateHitRate()`: `total > 0 ? hitCount / total : 0`, as an exact
rational (the JS float division at these small integer counts is the
same ratio). -/
def calculateHitRate (s : CacheState T) : ℚ :=
  let total := s.hitCount + s.missCount
  if total > 0 then (s.hitCount : ℚ) / (total : ℚ) else 0

/-- The record returned by `getStats()`. -/
structure Stats where
  size : Nat
  hitRate : ℚ
  entries : List (String × Nat × Nat)
deriving DecidableEq, Repr

/-- `getStats()`: current size, hit rate, and per-entry
`{key, age = now - timestamp, ttl}` snapshots. -/
def getStats (s : CacheState T) (now : Nat) : Stats :=
  { size := s.cache.length
    hitRate := calculateHitRate s
    entries := s.cache.map (fun kv => (kv.1, now - kv.2.timestamp, kv.2.ttl)) }

/-- `preload(key, fetcher, options)`: serve a truthy cached value without
calling the fetcher, otherwise await the fetcher, store and return its
datum (errors propagate).  The last component counts fetcher
invocations. -/
def preload (truthy : T → Bool) (s : CacheState T) (now : Nat) (key : String)
    (fetcher : Except String T) (o : CacheOptions) :
    Except String T × CacheState T × Nat :=
  let r := get s now key o
  match r.1 with
  | some d =>
    if truthy d then (.ok d, r.2, 0)
    else
      match fetcher with
      | .error e => (.error e, r.2, 1)
      | .ok data => (.ok data, set r.2 now key data o, 1)
  | none =>
    match fetcher with
    | .error e => (.error e, r.2, 1)
    | .ok data => (.ok data, set r.2 now key data o, 1)

end CacheManager

/-- Outcome record of one `cachedTzktFetch` invocation: the value or error
produced, the cache state after the call (background activity included),
the number of awaited remote calls and of fire-and-forget background
revalidation calls. -/
structure FetchResult (T : Type) where
  result : Except String T
  state : CacheState T
  remoteCalls : Nat
  backgroundCalls : Nat
deriving Repr

/-- `fetchAndCache(endpoint, cacheKey, cacheStrategy)`: await the remote
outcome; a failure throws before any store mutation, a success is stored
via `set` and returned. -/
def fetchAndCache {T : Type} (s : CacheState T) (now : Nat) (key : String)
    (o : CacheOptions) (remote : Except String T) :
    Except String T × CacheState T :=
  match remote with
  | .error e => (.error e, s)
  | .ok data => (.ok data, CacheManager.set s now key data o)

/-- `cachedTzktFetch(endpoint, cacheKey, cacheStrategy)`.  `remote` is the
outcome the network would return for this endpoint (used by whichever of
the foreground or background fetch runs).  On a truthy cached value the
function records a hit, peeks at the raw in-memory entry and fires a
background `fetchAndCache` (errors swallowed) exactly when that entry is
expired under a stale-while-revalidate strategy, and returns the cached
value; otherwise it records a miss and awaits `fetchAndCache`. -/
def cachedTzktFetch {T : Type} (truthy : T → Bool) (s : CacheState T)
    (now : Nat) (key : String) (o : CacheOptions)
    (remote : Except String T) : FetchResult T :=
  let r := CacheManager.get s now key o
  match r.1 with
  | some d =>
    if truthy d then
      let s2 := CacheManager.recordHit r.2
      if o.staleWhileRevalidate then
        match mapGet s2.cache key with
        | some entry =>
          if now - entry.timestamp > entry.ttl then
            let b := fetchAndCache s2 now key o remote
            { result := .ok d, state := b.2, remoteCalls := 0, backgroundCalls := 1 }
          else
            { result := .ok d, state := s2, remoteCalls := 0, backgroundCalls := 0 }
        | none =>
          { result := .ok d, state := s2, remoteCalls := 0, backgroundCalls := 0 }
      else
        { result := .ok d, state := s2, remoteCalls := 0, backgroundCalls := 0 }
    else
      let s2 := CacheManager.recordMiss r.2
      let f := fetchAndCache s2 now key o remote
      { result := f.1, state := f.2, remoteCalls := 1, backgroundCalls := 0 }
  | none =>
    let s2 := CacheManager.recordMiss r.2
    let f := fetchAndCache s2 now key o remote
    { result := f.1, state := f.2, remoteCalls := 1, backgroundCalls := 0 }

/-! ### The predefined `CacheStrategies` -/

def NETWORK_STATS : CacheOptions := ⟨some (5 * 60 * 1000), true, true⟩
def BAKERS_LIST : CacheOptions := ⟨some (10 * 60 * 1000), true, true⟩
def BAKER_DETAILS : CacheOptions := ⟨some (2 * 60 * 1000), false, true⟩
def BAKER_REWARDS : CacheOptions := ⟨some (30 * 60 * 1000), true, false⟩
def GLOBAL_STATS : CacheOptions := ⟨some (1 * 60 * 1000), false, true⟩

/-! ### `getBakersStats` (aggregate-statistics façade) -/

/-- The fields of a TzKT cycle used by `getBakersStats`. -/
structure Cycle where
  totalBakers : Nat
  totalBakingPower : ℚ
deriving DecidableEq, Repr

/-- The field of TzKT network statistics used by `getBakersStats`. -/
structure NetworkStats where
  totalFrozen : ℚ
deriving DecidableEq, Repr

/-- Outcome of the tez.cool enrichment request:
`unreachable` models a thrown `fetch`/`json()`; `payload` models a parsed
body whose optional chains `…?.stakingApy` / `…?.delegationApy` produced
the given values (`none` when any link was missing). -/
inductive TezCoolOutcome where
  | unreachable : TezCoolOutcome
  | payload (stakingApy delegationApy : Option ℚ) : TezCoolOutcome
deriving DecidableEq, Repr

/-- The aggregate record `getBakersStats` resolves with. -/
structure BakersStats where
  totalBakers : Nat
  activeBakers : Nat
  totalStaking : ℚ
  averageApy : ℚ
  stakingApy : ℚ
  delegationApy : ℚ
deriving DecidableEq, Repr

/-- `x || d` on a JS number that may be `undefined`: both `undefined`
and `0` are falsy. -/
def jsNumOr (x : Option ℚ) (d : ℚ) : ℚ :=
  match x with
  | some v => if v = 0 then d else v
  | none => d

/-- The hard-coded fallback `9.73` (typical staking APY). -/
def defaultStakingApy : ℚ := 973 / 100

/-- The hard-coded fallback `3.24` (typical delegation APY). -/
def defaultDelegationApy : ℚ := 324 / 100

/-- `getBakersStats()`.  `s` is the cache state restricted to the
`"bakers_stats"` key's payload type; the nested façade calls
`getCurrentCycle` / `getNetworkStats` are abstracted to their outcomes
(`cycleTry`, `statsTry` inside the `try` block, `cycleCatch` inside the
`catch` block), and the tez.cool request to `tez`.  A rejection of the
`Promise.all` in the `try` block lands in the `catch` block, whose own
`getCurrentCycle` rejection rejects the whole call. -/
def getBakersStats (s : CacheState BakersStats) (now : Nat)
    (tez : TezCoolOutcome)
    (cycleTry : Except String Cycle) (statsTry : Except String NetworkStats)
    (cycleCatch : Except String Cycle) :
    Except String BakersStats × CacheState BakersStats :=
  let key := "bakers_stats"
  let r := CacheManager.get s now key GLOBAL_STATS
  match r.1 with
  | some c => (.ok c, CacheManager.recordHit r.2)
  | none =>
    let s1 := CacheManager.recordMiss r.2
    let fallback := fun (cc : Except String Cycle) =>
      match cc with
      | .error e => (Except.error e, s1)
      | .ok cy =>
        let res : BakersStats :=
          ⟨cy.totalBakers, cy.totalBakers, cy.totalBakingPower,
           defaultStakingApy, defaultStakingApy, defaultDelegationApy⟩
        (Except.ok res, CacheManager.set s1 now key res GLOBAL_STATS)
    match tez with
    | .unreachable => fallback cycleCatch
    | .payload sa da =>
      let stakingApy := jsNumOr sa defaultStakingApy
      let delegationApy := jsNumOr da defaultDelegationApy
      match cycleTry, statsTry with
      | .ok cy, .ok st =>
        let res : BakersStats :=
          ⟨cy.totalBakers, cy.totalBakers, st.totalFrozen,
           stakingApy, stakingApy, delegationApy⟩
        (Except.ok res, CacheManager.set s1 now key res GLOBAL_STATS)
      | _, _ => fallback cycleCatch

/-! ### The `useBakerDetails` hook (cancellation discipline)

Event-level model of `fetchBakerData` in `use-tzkt-data-cached.ts`.
Each invocation aborts the controller currently held by
`abortControllerRef`, installs a fresh `AbortController`, and starts the
remote fetches; when an invocation's `Promise.all` resolves, its
continuation updates the displayed state only if
`abortControllerRef.current?.signal.aborted` is not `true` — note that
this reads the ref, which points at the most recently installed
controller, not at the controller created for that invocation.
The abort signal is never passed to the fetches themselves, so every
started invocation eventually resolves.  The baker payload resolved for
an address is modelled by the address itself. -/

structure HookState where
  /-- `aborted` flag of each created controller, indexed by creation order. -/
  controllers : List Bool
  /-- Index of the controller held by `abortControllerRef.current`. -/
  refCurrent : Option Nat
  /-- In-flight invocations: (controller index, address fetched). -/
  pending : List (Nat × String)
  /-- The `baker` state displayed by the hook. -/
  baker : Option String
deriving DecidableEq, Repr

def hookInit : HookState := ⟨[], none, [], none⟩

/-- Synchronous part of `fetchBakerData` for a non-null address:
`abortControllerRef.current?.abort()`, then install a fresh controller
and start the fetches. -/
def hookStart (st : HookState) (address : String) : HookState :=
  let aborted :=
    match st.refCurrent with
    | some i => st.controllers.set i true
    | none => st.controllers
  let newId := aborted.length
  { controllers := aborted ++ [false]
    refCurrent := some newId
    pending := st.pending ++ [(newId, address)]
    baker := st.baker }

/-- Continuation run when invocation `id`'s `Promise.all` resolves:
guarded by `!abortControllerRef.current?.signal.aborted` (the ref's
current controller — an absent ref or absent controller reads as not
aborted, as `!undefined` is `true` in JS). -/
def hookResolve (st : HookState) (id : Nat) : HookState :=
  match st.pending.find? (fun p => p.1 == id) with
  | none => st
  | some p =>
    let refAborted :=
      match st.refCurrent with
      | some i => st.controllers.getD i false
      | none => false
    let st1 := { st with pending := st.pending.filter (fun q => q.1 != id) }
    if refAborted then st1 else { st1 with baker := some p.2 }

inductive HookEvent where
  | start (address : String) : HookEvent
  | resolve (id : Nat) : HookEvent
deriving DecidableEq, Repr

def hookStep (st : HookState) (e : HookEvent) : HookState :=
  match e with
  | .start a => hookStart st a
  | .resolve i => hookResolve st i

/-- Run the hook model from the initial state over an event trace. -/
def hookRun (evs : List HookEvent) : HookState :=
  evs.foldl hookStep hookInit

/-! ### Association-list lemmas -/

theorem mapGet_eq_none {T : Type} (l : List (String × T)) (k : String)
    (h : mapContains l k = false) : mapGet l k = none := by
  have h' : l.find? (fun kv => kv.1 == k) = none := by
    rw [List.find?_eq_none]
    intro x hx hpx
    have hc : mapContains l k = true := by
      simp only [mapContains, List.any_eq_true]
      exact ⟨x, hx, hpx⟩
    simp [hc] at h
  simp [mapGet, h']

theorem mapGet_replace {T : Type} (l : List (String × T)) (k : String) (v : T)
    (h : mapContains l k = true) :
    mapGet (l.map (fun kv => if kv.1 == k then (k, v) else kv)) k = some v := by
  induction l with
  | nil => simp [mapContains] at h
  | cons hd tl ih =>
    cases hk : (hd.1 == k) with
    | true =>
      simp only [List.map_cons, mapGet]
      rw [if_pos hk, List.find?_cons_of_pos _ (by simp)]
      rfl
    | false =>
      have h' : mapContains tl k = true := by
        simpa [mapContains, hk] using h
      simp only [List.map_cons, mapGet]
      rw [if_neg (by simp [hk]), List.find?_cons_of_neg _ (by simp [hk])]
      simpa [mapGet] using ih h'

theorem mapGet_append_single {T : Type} (l : List (String × T)) (k : String)
    (v : T) (h : mapContains l k = false) :
    mapGet (l ++ [(k, v)]) k = some v := by
  induction l with
  | nil => simp [mapGet]
  | cons hd tl ih =>
    simp only [mapContains, List.any_cons, Bool.or_eq_false_iff] at h
    rw [List.cons_append]
    simp only [mapGet]
    rw [List.find?_cons_of_neg _ (by simp [h.1])]
    simpa [mapGet] using ih h.2

theorem mapGet_mapSet_self {T : Type} (l : List (String × T)) (k : String)
    (v : T) : mapGet (mapSet l k v) k = some v := by
  unfold mapSet
  cases h : mapContains l k with
  | true => rw [if_pos rfl]; exact mapGet_replace l k v h
  | false => rw [if_neg (by simp)]; exact mapGet_append_single l k v h

theorem mapGet_mapDelete_self {T : Type} (l : List (String × T)) (k : String) :
    mapGet (mapDelete l k) k = none := by
  have h : (mapDelete l k).find? (fun kv => kv.1 == k) = none := by
    rw [List.find?_eq_none]
    intro x hx
    simp only [mapDelete, List.mem_filter] at hx
    simpa using hx.2
  simp [mapGet, h]

/-! ### Projections of `set` -/

/-- The in-memory map after `set` is the (possibly evicted) map with the
fresh entry written at `key`, whatever the persistence flag. -/
theorem set_cache_eq {T : Type} (s : CacheState T) (now : Nat) (key : String)
    (data : T) (o : CacheOptions) :
    (CacheManager.set s now key data o).cache
      = mapSet (if s.cache.length ≥ maxSize
                then CacheManager.evictOldest s now else s).cache
          key ⟨data, now, ttlOrDefault o.ttl, key⟩ := by
  unfold CacheManager.set
  cases o.persistToLocalStorage <;> simp

/-- The durable mirror after `set`: written at `key` exactly when the
policy persists; the eviction (if any) has already removed its key. -/
theorem set_localStore_eq {T : Type} (s : CacheState T) (now : Nat)
    (key : String) (data : T) (o : CacheOptions) :
    (CacheManager.set s now key data o).localStore
      = (if o.persistToLocalStorage
         then mapSet (if s.cache.length ≥ maxSize
                      then CacheManager.evictOldest s now else s).localStore
                key ⟨data, now, ttlOrDefault o.ttl, key⟩
         else (if s.cache.length ≥ maxSize
               then CacheManager.evictOldest s now else s).localStore) := by
  unfold CacheManager.set
  cases o.persistToLocalStorage <;> simp

/-- `set` never touches the counters. -/
theorem set_counters_eq {T : Type} (s : CacheState T) (now : Nat)
    (key : String) (data : T) (o : CacheOptions) :
    (CacheManager.set s now key data o).hitCount = s.hitCount
    ∧ (CacheManager.set s now key data o).missCount = s.missCount := by
  refine ⟨?_, ?_⟩ <;>
  · unfold CacheManager.set CacheManager.evictOldest
    cases o.persistToLocalStorage <;> dsimp only <;> split <;> (try split) <;>
      (try split) <;> simp_all

/-! ### C1 — TTL expiry and stale reads -/

/-- **C1**: a `get` after `set` with no time advance past the effective
ttl returns the stored data; a `get` on an expired in-memory entry
returns the stale data and leaves the state untouched when
`staleWhileRevalidate` is set, and otherwise returns `none` and deletes
the entry from both the in-memory map and the durable mirror. -/
theorem C1_ttl_and_stale_reads {T : Type} (s : CacheState T) (now nowR : Nat)
    (key : String) (data : T) (o : CacheOptions) (e : CacheEntry T) :
    (nowR - now ≤ ttlOrDefault o.ttl →
      (CacheManager.get (CacheManager.set s now key data o) nowR key o).1
        = some data)
    ∧ (mapGet s.cache key = some e → CacheManager.isExpired now e = true →
        (o.staleWhileRevalidate = true →
          CacheManager.get s now key o = (some e.data, s))
        ∧ (o.staleWhileRevalidate = false →
            CacheManager.get s now key o
              = (none, { s with cache := mapDelete s.cache key,
                                localStore := mapDelete s.localStore key }))) := by
  constructor
  · intro h
    have hg : mapGet (CacheManager.set s now key data o).cache key
        = some ⟨data, now, ttlOrDefault o.ttl, key⟩ := by
      rw [set_cache_eq]; exact mapGet_mapSet_self _ _ _
    have hexp : CacheManager.isExpired nowR
        (⟨data, now, ttlOrDefault o.ttl, key⟩ : CacheEntry T) = false := by
      simp only [CacheManager.isExpired, decide_eq_false_iff_not]
      omega
    simp [CacheManager.get, hg, hexp]
  · intro hmem hexp
    constructor
    · intro hswr
      simp [CacheManager.get, hmem, hexp, hswr]
    · intro hswr
      simp [CacheManager.get, hmem, hexp, hswr]

/-- Concrete exercise of C1: a fresh write is readable at once, and an
expired entry under a non-stale policy reads as absent while being
dropped from both tiers. -/
theorem C1_ttl_and_stale_reads_witness :
    (CacheManager.get
        (CacheManager.set (⟨[("k", ⟨7, 0, 5, "k"⟩)], [], 0, 0⟩ : CacheState Nat)
          100 "k" 42 ⟨some 1000, false, false⟩) 100 "k"
        ⟨some 1000, false, false⟩).1 = some 42
    ∧ CacheManager.get (⟨[("k", ⟨7, 0, 5, "k"⟩)], [], 0, 0⟩ : CacheState Nat)
        100 "k" ⟨some 1000, false, false⟩
        = (none, ⟨mapDelete [("k", ⟨7, 0, 5, "k"⟩)] "k", mapDelete [] "k", 0, 0⟩) := by
  refine ⟨(C1_ttl_and_stale_reads _ 100 100 "k" 42 _ ⟨7, 0, 5, "k"⟩).1 (by decide),
          ?_⟩
  exact ((C1_ttl_and_stale_reads (⟨[("k", ⟨7, 0, 5, "k"⟩)], [], 0, 0⟩ : CacheState Nat)
      100 100 "k" 42 ⟨some 1000, false, false⟩ ⟨7, 0, 5, "k"⟩).2
      (by decide) (by decide)).2 rfl

/-! ### C4 — reads through the durable mirror -/

/-- **C4 counterexample**: with no in-memory entry and a persisting
policy, a `get` that finds an *expired* entry in the durable mirror
returns absent but does **not** discard the stored entry: the mirror
still holds it after the call (the source only reads in this branch —
`removeFromLocalStorage` is never invoked there). -/
theorem C4_expired_mirror_kept :
    (CacheManager.get (⟨[], [("k", ⟨7, 0, 5, "k"⟩)], 0, 0⟩ : CacheState Nat)
        100 "k" ⟨some 1000, true, false⟩).1 = none
    ∧ (CacheManager.get (⟨[], [("k", ⟨7, 0, 5, "k"⟩)], 0, 0⟩ : CacheState Nat)
        100 "k" ⟨some 1000, true, false⟩).2.localStore
      = [("k", ⟨7, 0, 5, "k"⟩)] := by decide

/-- **C4 amended**: for a key with no in-memory entry under a persisting
policy, `get` loads from the durable mirror: found and unexpired, the
entry is promoted into memory and its data returned; found but expired,
`get` returns absent and leaves both tiers unchanged (the expired
durable entry is *not* discarded); not found, `get` returns absent. -/
theorem C4_mirror_read {T : Type} (s : CacheState T) (now : Nat)
    (key : String) (o : CacheOptions)
    (hmem : mapGet s.cache key = none)
    (hp : o.persistToLocalStorage = true) :
    (∀ e : CacheEntry T, mapGet s.localStore key = some e →
       (CacheManager.isExpired now e = false →
          CacheManager.get s now key o
            = (some e.data, { s with cache := mapSet s.cache key e }))
       ∧ (CacheManager.isExpired now e = true →
          CacheManager.get s now key o = (none, s)))
    ∧ (mapGet s.localStore key = none →
        CacheManager.get s now key o = (none, s)) := by
  constructor
  · intro e he
    constructor
    · intro hexp
      simp [CacheManager.get, hmem, hp, he, hexp]
    · intro hexp
      simp [CacheManager.get, hmem, hp, he, hexp]
  · intro he
    simp [CacheManager.get, hmem, hp, he]

/-- Concrete exercise of C4 as amended: an unexpired mirrored entry is
promoted and served. -/
theorem C4_mirror_read_witness :
    CacheManager.get (⟨[], [("k", ⟨9, 90, 50, "k"⟩)], 0, 0⟩ : CacheState Nat)
        100 "k" ⟨some 1000, true, false⟩
      = (some 9, ⟨mapSet [] "k" ⟨9, 90, 50, "k"⟩, [("k", ⟨9, 90, 50, "k"⟩)], 0, 0⟩) :=
  ((C4_mirror_read (⟨[], [("k", ⟨9, 90, 50, "k"⟩)], 0, 0⟩ : CacheState Nat)
      100 "k" ⟨some 1000, true, false⟩ (by decide) rfl).1
    ⟨9, 90, 50, "k"⟩ (by decide)).1 (by decide)

/-! ### C6 — durable round-trip across a restart -/

/-- Simulate a process restart: the in-memory map and the counters are
in-process state and vanish; the durable mirror survives. -/
def restart {T : Type} (s : CacheState T) : CacheState T :=
  ⟨[], s.localStore, 0, 0⟩

/-- **C6**: a value stored under a persisting policy, after the
in-memory tier is purged (process restart), is reproduced identically by
a `get` with the same key and policy executed before the ttl has
elapsed.  `CacheManager.get` involves no remote collaborator: the data
comes from the durable mirror alone. -/
theorem C6_durable_round_trip {T : Type} (s : CacheState T) (now nowR : Nat)
    (key : String) (data : T) (o : CacheOptions)
    (hp : o.persistToLocalStorage = true)
    (h : nowR - now ≤ ttlOrDefault o.ttl) :
    (CacheManager.get (restart (CacheManager.set s now key data o)) nowR key o).1
      = some data := by
  have hL : mapGet (CacheManager.set s now key data o).localStore key
      = some ⟨data, now, ttlOrDefault o.ttl, key⟩ := by
    rw [set_localStore_eq, hp, if_pos rfl]
    exact mapGet_mapSet_self _ _ _
  have hexp : CacheManager.isExpired nowR
      (⟨data, now, ttlOrDefault o.ttl, key⟩ : CacheEntry T) = false := by
    simp only [CacheManager.isExpired, decide_eq_false_iff_not]
    omega
  have h0 : mapGet ([] : List (String × CacheEntry T)) key = none := rfl
  simp [CacheManager.get, restart, hp, h0, hL, hexp]

/-- Concrete exercise of C6: store 42 under a persisting policy, wipe the
in-memory tier, read it back identically. -/
theorem C6_durable_round_trip_witness :
    (CacheManager.get
        (restart (CacheManager.set (⟨[], [], 0, 0⟩ : CacheState Nat) 0 "k" 42
          ⟨some 1000, true, false⟩)) 100 "k" ⟨some 1000, true, false⟩).1
      = some 42 :=
  C6_durable_round_trip (⟨[], [], 0, 0⟩ : CacheState Nat) 0 100 "k" 42
    ⟨some 1000, true, false⟩ rfl (by decide)

/-! ### C8 — hit-rate arithmetic and counter monotonicity -/

/-- Apply `f` to a state `n` times. -/
def applyN {T : Type} (f : CacheState T → CacheState T) :
    Nat → CacheState T → CacheState T
  | 0, s => s
  | n + 1, s => applyN f n (f s)

/-- The state of a freshly constructed `CacheManager`. -/
def initialState (T : Type) : CacheState T := ⟨[], [], 0, 0⟩

theorem applyN_recordHit_counts {T : Type} (n : Nat) (s : CacheState T) :
    (applyN CacheManager.recordHit n s).hitCount = s.hitCount + n
    ∧ (applyN CacheManager.recordHit n s).missCount = s.missCount := by
  induction n generalizing s with
  | zero => exact ⟨rfl, rfl⟩
  | succ n ih =>
    rcases ih (CacheManager.recordHit s) with ⟨h1, h2⟩
    simp only [CacheManager.recordHit] at h1 h2
    exact ⟨by simp only [applyN, CacheManager.recordHit]; omega,
           by simp only [applyN, CacheManager.recordHit]; omega⟩

theorem applyN_recordMiss_counts {T : Type} (n : Nat) (s : CacheState T) :
    (applyN CacheManager.recordMiss n s).missCount = s.missCount + n
    ∧ (applyN CacheManager.recordMiss n s).hitCount = s.hitCount := by
  induction n generalizing s with
  | zero => exact ⟨rfl, rfl⟩
  | succ n ih =>
    rcases ih (CacheManager.recordMiss s) with ⟨h1, h2⟩
    simp only [CacheManager.recordMiss] at h1 h2
    exact ⟨by simp only [applyN, CacheManager.recordMiss]; omega,
           by simp only [applyN, CacheManager.recordMiss]; omega⟩

/-- `get` never touches the counters. -/
theorem get_counters_eq {T : Type} (s : CacheState T) (now : Nat)
    (key : String) (o : CacheOptions) :
    (CacheManager.get s now key o).2.hitCount = s.hitCount
    ∧ (CacheManager.get s now key o).2.missCount = s.missCount := by
  refine ⟨?_, ?_⟩ <;>
  · unfold CacheManager.get
    cases mapGet s.cache key <;> dsimp only <;> (repeat' split) <;> rfl

/-- `invalidatePattern` never touches the counters. -/
theorem invalidatePattern_counters_eq {T : Type} (s : CacheState T)
    (matchesKey : String → Bool) :
    (CacheManager.invalidatePattern s matchesKey).hitCount = s.hitCount
    ∧ (CacheManager.invalidatePattern s matchesKey).missCount = s.missCount := by
  unfold CacheManager.invalidatePattern
  generalize (s.cache.map Prod.fst).filter matchesKey = L
  induction L generalizing s with
  | nil => exact ⟨rfl, rfl⟩
  | cons k L ih =>
    simp only [List.foldl_cons]
    exact ih _

/-- `preload` never touches the counters. -/
theorem preload_counters_eq {T : Type} (truthy : T → Bool) (s : CacheState T)
    (now : Nat) (key : String) (fetcher : Except String T) (o : CacheOptions) :
    (CacheManager.preload truthy s now key fetcher o).2.1.hitCount = s.hitCount
    ∧ (CacheManager.preload truthy s now key fetcher o).2.1.missCount
        = s.missCount := by
  have hg := get_counters_eq s now key o
  have hs := fun (data : T) =>
    set_counters_eq (CacheManager.get s now key o).2 now key data o
  refine ⟨?_, ?_⟩ <;>
  · unfold CacheManager.preload
    dsimp only
    (repeat' split) <;>
      first
        | exact hg.1
        | exact hg.2
        | exact ((hs _).1.trans hg.1)
        | exact ((hs _).2.trans hg.2)

/-- `cachedTzktFetch` can only increment the counters. -/
theorem cachedTzktFetch_counters_le {T : Type} (truthy : T → Bool)
    (s : CacheState T) (now : Nat) (key : String) (o : CacheOptions)
    (remote : Except String T) :
    s.hitCount ≤ (cachedTzktFetch truthy s now key o remote).state.hitCount
    ∧ s.missCount ≤ (cachedTzktFetch truthy s now key o remote).state.missCount := by
  have hg := get_counters_eq s now key o
  have hs1 : ∀ (s' : CacheState T) (d : T),
      (CacheManager.set s' now key d o).hitCount = s'.hitCount :=
    fun s' d => (set_counters_eq s' now key d o).1
  have hs2 : ∀ (s' : CacheState T) (d : T),
      (CacheManager.set s' now key d o).missCount = s'.missCount :=
    fun s' d => (set_counters_eq s' now key d o).2
  refine ⟨?_, ?_⟩ <;>
  · unfold cachedTzktFetch fetchAndCache
    dsimp only
    (repeat' split) <;>
      simp only [hs1, hs2, CacheManager.recordHit, CacheManager.recordMiss] <;>
      omega

/-- `getBakersStats` can only increment the counters. -/
theorem getBakersStats_counters_le (s : CacheState BakersStats) (now : Nat)
    (tez : TezCoolOutcome) (ct : Except String Cycle)
    (st : Except String NetworkStats) (cc : Except String Cycle) :
    s.hitCount ≤ (getBakersStats s now tez ct st cc).2.hitCount
    ∧ s.missCount ≤ (getBakersStats s now tez ct st cc).2.missCount := by
  have hg := get_counters_eq s now "bakers_stats" GLOBAL_STATS
  have hs1 : ∀ (s' : CacheState BakersStats) (d : BakersStats),
      (CacheManager.set s' now "bakers_stats" d GLOBAL_STATS).hitCount
        = s'.hitCount :=
    fun s' d => (set_counters_eq s' now "bakers_stats" d GLOBAL_STATS).1
  have hs2 : ∀ (s' : CacheState BakersStats) (d : BakersStats),
      (CacheManager.set s' now "bakers_stats" d GLOBAL_STATS).missCount
        = s'.missCount :=
    fun s' d => (set_counters_eq s' now "bakers_stats" d GLOBAL_STATS).2
  refine ⟨?_, ?_⟩ <;>
  · unfold getBakersStats
    dsimp only
    (repeat' split) <;>
      simp only [hs1, hs2, CacheManager.recordHit, CacheManager.recordMiss] <;>
      omega

/-- One call to the mutating interface of the embedded cache layer. -/
inductive CacheOp (T : Type) where
  | getOp (now : Nat) (key : String) (o : CacheOptions) : CacheOp T
  | setOp (now : Nat) (key : String) (data : T) (o : CacheOptions) : CacheOp T
  | invalidateOp (key : String) : CacheOp T
  | invalidatePatternOp (matchesKey : String → Bool) : CacheOp T
  | clearOp : CacheOp T
  | recordHitOp : CacheOp T
  | recordMissOp : CacheOp T
  | preloadOp (truthy : T → Bool) (now : Nat) (key : String)
      (fetcher : Except String T) (o : CacheOptions) : CacheOp T
  | fetchOp (truthy : T → Bool) (now : Nat) (key : String) (o : CacheOptions)
      (remote : Except String T) : CacheOp T

/-- State transition of each operation. -/
def applyOp {T : Type} (s : CacheState T) : CacheOp T → CacheState T
  | .getOp now key o => (CacheManager.get s now key o).2
  | .setOp now key data o => CacheManager.set s now key data o
  | .invalidateOp key => CacheManager.invalidate s key
  | .invalidatePatternOp m => CacheManager.invalidatePattern s m
  | .clearOp => CacheManager.clear s
  | .recordHitOp => CacheManager.recordHit s
  | .recordMissOp => CacheManager.recordMiss s
  | .preloadOp truthy now key fetcher o =>
      (CacheManager.preload truthy s now key fetcher o).2.1
  | .fetchOp truthy now key o remote =>
      (cachedTzktFetch truthy s now key o remote).state

theorem applyOp_counters_le {T : Type} (s : CacheState T) (op : CacheOp T) :
    s.hitCount ≤ (applyOp s op).hitCount
    ∧ s.missCount ≤ (applyOp s op).missCount := by
  cases op with
  | getOp now key o =>
    exact ⟨(get_counters_eq s now key o).1.symm.le,
           (get_counters_eq s now key o).2.symm.le⟩
  | setOp now key data o =>
    exact ⟨(set_counters_eq s now key data o).1.symm.le,
           (set_counters_eq s now key data o).2.symm.le⟩
  | invalidateOp key => exact ⟨le_rfl, le_rfl⟩
  | invalidatePatternOp m =>
    exact ⟨(invalidatePattern_counters_eq s m).1.symm.le,
           (invalidatePattern_counters_eq s m).2.symm.le⟩
  | clearOp => exact ⟨le_rfl, le_rfl⟩
  | recordHitOp => exact ⟨Nat.le_succ _, le_rfl⟩
  | recordMissOp => exact ⟨le_rfl, Nat.le_succ _⟩
  | preloadOp truthy now key fetcher o =>
    exact ⟨(preload_counters_eq truthy s now key fetcher o).1.symm.le,
           (preload_counters_eq truthy s now key fetcher o).2.symm.le⟩
  | fetchOp truthy now key o remote =>
    exact cachedTzktFetch_counters_le truthy s now key o remote

theorem foldl_applyOp_counters_le {T : Type} (ops : List (CacheOp T))
    (s : CacheState T) :
    s.hitCount ≤ (ops.foldl applyOp s).hitCount
    ∧ s.missCount ≤ (ops.foldl applyOp s).missCount := by
  induction ops generalizing s with
  | nil => exact ⟨le_rfl, le_rfl⟩
  | cons op ops ih =>
    have h1 := applyOp_counters_le s op
    have h2 := ih (applyOp s op)
    exact ⟨h1.1.trans h2.1, h1.2.trans h2.2⟩

/-- **C8**: after `H` recorded hits and `M` recorded misses from a fresh
manager, `getStats` reports `hitRate = H / (H + M)` (with the rational
convention `0 / 0 = 0`, matching the source's `total > 0` guard), in
particular `0` when `H = M = 0`; and no operation of the embedded
interface, nor `getBakersStats`, ever decreases either counter. -/
theorem C8_hit_rate_arithmetic (T : Type) (H M now : Nat) (s : CacheState T)
    (ops : List (CacheOp T)) (sb : CacheState BakersStats) (nowB : Nat)
    (tez : TezCoolOutcome) (ct : Except String Cycle)
    (st : Except String NetworkStats) (cc : Except String Cycle) :
    ((CacheManager.getStats
        (applyN CacheManager.recordMiss M
          (applyN CacheManager.recordHit H (initialState T))) now).hitRate
      = (H : ℚ) / ((H : ℚ) + (M : ℚ)))
    ∧ (H = 0 → M = 0 →
        (CacheManager.getStats
          (applyN CacheManager.recordMiss M
            (applyN CacheManager.recordHit H (initialState T))) now).hitRate = 0)
    ∧ s.hitCount ≤ (ops.foldl applyOp s).hitCount
    ∧ s.missCount ≤ (ops.foldl applyOp s).missCount
    ∧ sb.hitCount ≤ (getBakersStats sb nowB tez ct st cc).2.hitCount
    ∧ sb.missCount ≤ (getBakersStats sb nowB tez ct st cc).2.missCount := by
  have hH := applyN_recordHit_counts H (initialState T)
  have hM := applyN_recordMiss_counts M
    (applyN CacheManager.recordHit H (initialState T))
  have hhit : (applyN CacheManager.recordMiss M
      (applyN CacheManager.recordHit H (initialState T))).hitCount = H := by
    rw [hM.2, hH.1]; simp [initialState]
  have hmiss : (applyN CacheManager.recordMiss M
      (applyN CacheManager.recordHit H (initialState T))).missCount = M := by
    rw [hM.1, hH.2]; simp [initialState]
  have hmain : (CacheManager.getStats
      (applyN CacheManager.recordMiss M
        (applyN CacheManager.recordHit H (initialState T))) now).hitRate
      = (H : ℚ) / ((H : ℚ) + (M : ℚ)) := by
    unfold CacheManager.getStats CacheManager.calculateHitRate
    dsimp only
    rw [hhit, hmiss]
    by_cases h0 : H + M = 0
    · have hzH : H = 0 := by omega
      have hzM : M = 0 := by omega
      subst hzH; subst hzM
      simp
    · have hpos : 0 < H + M := Nat.pos_of_ne_zero h0
      rw [if_pos hpos]
      push_cast
      ring_nf
  refine ⟨hmain, fun h1 h2 => ?_, (foldl_applyOp_counters_le ops s).1,
          (foldl_applyOp_counters_le ops s).2,
          (getBakersStats_counters_le sb nowB tez ct st cc).1,
          (getBakersStats_counters_le sb nowB tez ct st cc).2⟩
  rw [hmain, h1, h2]
  simp

/-- Concrete exercise of C8: three hits and one miss give hit rate 3/4;
no hits and no misses give 0. -/
theorem C8_hit_rate_arithmetic_witness :
    ((CacheManager.getStats
        (applyN CacheManager.recordMiss 1
          (applyN CacheManager.recordHit 3 (initialState Nat))) 0).hitRate
      = (3 : ℚ) / ((3 : ℚ) + (1 : ℚ)))
    ∧ ((CacheManager.getStats
        (applyN CacheManager.recordMiss 0
          (applyN CacheManager.recordHit 0 (initialState Nat))) 0).hitRate = 0) :=
  ⟨(C8_hit_rate_arithmetic Nat 3 1 0 (initialState Nat) []
      (initialState BakersStats) 0 .unreachable (.error "") (.error "")
      (.error "")).1,
   (C8_hit_rate_arithmetic Nat 0 0 0 (initialState Nat) []
      (initialState BakersStats) 0 .unreachable (.error "") (.error "")
      (.error "")).2.1 rfl rfl⟩

/-! ### C3 — error propagation in the orchestrator -/

/-- **C3**: on a genuine cache miss the remote call is awaited exactly
once: its failure propagates to the caller, leaving the store exactly as
the lookup left it (the failed call writes nothing, and there is no
retry), while its success is stored and then returned; on a cache hit —
including a stale hit served under stale-while-revalidate — the result
is the cached value whatever the remote outcome: a background refresh
failure is swallowed, never surfaced. -/
theorem C3_error_propagation {T : Type} (truthy : T → Bool)
    (s : CacheState T) (now : Nat) (key : String) (o : CacheOptions)
    (e : String) (v d : T) (remote : Except String T) :
    ((CacheManager.get s now key o).1 = none →
       (cachedTzktFetch truthy s now key o (.error e)).result = .error e
       ∧ (cachedTzktFetch truthy s now key o (.error e)).state.cache
           = (CacheManager.get s now key o).2.cache
       ∧ (cachedTzktFetch truthy s now key o (.error e)).state.localStore
           = (CacheManager.get s now key o).2.localStore
       ∧ (cachedTzktFetch truthy s now key o (.error e)).remoteCalls = 1)
    ∧ ((CacheManager.get s now key o).1 = none →
       (cachedTzktFetch truthy s now key o (.ok v)).result = .ok v
       ∧ (cachedTzktFetch truthy s now key o (.ok v)).state
           = CacheManager.set
               (CacheManager.recordMiss (CacheManager.get s now key o).2)
               now key v o
       ∧ (cachedTzktFetch truthy s now key o (.ok v)).remoteCalls = 1)
    ∧ ((CacheManager.get s now key o).1 = some d → truthy d = true →
       (cachedTzktFetch truthy s now key o remote).result = .ok d
       ∧ (cachedTzktFetch truthy s now key o remote).remoteCalls = 0) := by
  refine ⟨fun h => ?_, fun h => ?_, fun h ht => ?_⟩
  · simp [cachedTzktFetch, h, fetchAndCache, CacheManager.recordMiss]
  · simp [cachedTzktFetch, h, fetchAndCache]
  · simp only [cachedTzktFetch, h, ht]
    refine ⟨?_, ?_⟩ <;> dsimp only <;> (repeat' split) <;> simp_all

/-- Concrete exercise of C3: a miss propagates the remote error without
writing, and a (fresh) hit swallows the same remote error. -/
theorem C3_error_propagation_witness :
    (cachedTzktFetch (fun n => n != 0) (⟨[], [], 0, 0⟩ : CacheState Nat)
        0 "k" ⟨some 1000, false, true⟩ (.error "boom")).result
      = .error "boom"
    ∧ (cachedTzktFetch (fun n => n != 0)
        (⟨[("k", ⟨5, 0, 1000, "k"⟩)], [], 0, 0⟩ : CacheState Nat)
        10 "k" ⟨some 1000, false, true⟩ (.error "boom")).result = .ok 5 :=
  ⟨((C3_error_propagation (fun n => n != 0) (⟨[], [], 0, 0⟩ : CacheState Nat)
      0 "k" ⟨some 1000, false, true⟩ "boom" 0 0 (.error "boom")).1
      (by decide)).1,
   ((C3_error_propagation (fun n => n != 0)
      (⟨[("k", ⟨5, 0, 1000, "k"⟩)], [], 0, 0⟩ : CacheState Nat)
      10 "k" ⟨some 1000, false, true⟩ "boom" 0 5 (.error "boom")).2.2
      (by decide) (by decide)).1⟩

/-! ### C10 — falsy payloads read as misses -/

/-- **C10**: a cached, unexpired entry whose payload is falsy under JS
truthiness is treated as absent by the orchestration layer:
`cachedTzktFetch` records a miss and performs a foreground remote call,
and `preload` invokes its fetcher, instead of serving the cached
value as a hit. -/
theorem C10_falsy_payload_is_miss {T : Type} (truthy : T → Bool)
    (s : CacheState T) (now : Nat) (key : String) (o : CacheOptions)
    (e : CacheEntry T) (remote fetcher : Except String T)
    (hmem : mapGet s.cache key = some e)
    (hexp : CacheManager.isExpired now e = false)
    (hfalsy : truthy e.data = false) :
    (cachedTzktFetch truthy s now key o remote).remoteCalls = 1
    ∧ (cachedTzktFetch truthy s now key o remote).state.missCount
        = s.missCount + 1
    ∧ (CacheManager.preload truthy s now key fetcher o).2.2 = 1 := by
  have hg : CacheManager.get s now key o = (some e.data, s) := by
    simp [CacheManager.get, hmem, hexp]
  refine ⟨?_, ?_, ?_⟩
  · cases remote <;> simp [cachedTzktFetch, hg, hfalsy, fetchAndCache]
  · cases remote with
    | error err =>
      simp [cachedTzktFetch, hg, hfalsy, fetchAndCache,
            CacheManager.recordMiss]
    | ok w =>
      have hsc := (set_counters_eq (CacheManager.recordMiss s) now key w o).2
      simp [cachedTzktFetch, hg, hfalsy, fetchAndCache]
      rw [hsc]
      rfl
  · cases fetcher <;> simp [CacheManager.preload, hg, hfalsy]

/-- Concrete exercise of C10: an unexpired cached `0` forces a remote
call and a recorded miss, and forces `preload` to fetch. -/
theorem C10_falsy_payload_is_miss_witness :
    (cachedTzktFetch (fun n => n != 0)
        (⟨[("k", ⟨0, 0, 1000, "k"⟩)], [], 0, 0⟩ : CacheState Nat)
        0 "k" ⟨some 1000, false, true⟩ (.ok 7)).remoteCalls = 1
    ∧ (cachedTzktFetch (fun n => n != 0)
        (⟨[("k", ⟨0, 0, 1000, "k"⟩)], [], 0, 0⟩ : CacheState Nat)
        0 "k" ⟨some 1000, false, true⟩ (.ok 7)).state.missCount = 0 + 1
    ∧ (CacheManager.preload (fun n => n != 0)
        (⟨[("k", ⟨0, 0, 1000, "k"⟩)], [], 0, 0⟩ : CacheState Nat)
        0 "k" (.ok 7) ⟨some 1000, false, true⟩).2.2 = 1 :=
  C10_falsy_payload_is_miss (fun n => n != 0)
    (⟨[("k", ⟨0, 0, 1000, "k"⟩)], [], 0, 0⟩ : CacheState Nat)
    0 "k" ⟨some 1000, false, true⟩ ⟨0, 0, 1000, "k"⟩ (.ok 7) (.ok 7)
    (by decide) (by decide) (by decide)

/-! ### C9 — pattern invalidation -/

/-- Deleting a list of keys from both tiers, one key at a time, equals
filtering both tiers by non-membership in that list. -/
theorem foldl_delete_both {T : Type} (L : List String) (s : CacheState T) :
    L.foldl (fun acc k =>
        { acc with cache := mapDelete acc.cache k,
                   localStore := mapDelete acc.localStore k }) s
      = { s with
            cache := s.cache.filter (fun kv => !(L.contains kv.1)),
            localStore := s.localStore.filter (fun kv => !(L.contains kv.1)) } := by
  induction L generalizing s with
  | nil => simp
  | cons k L ih =>
    simp only [List.foldl_cons]
    rw [ih]
    have hstep : ∀ (l : List (String × CacheEntry T)),
        (mapDelete l k).filter (fun kv => !(L.contains kv.1))
          = l.filter (fun kv => !((k :: L).contains kv.1)) := by
      intro l
      rw [mapDelete, List.filter_filter]
      apply List.filter_congr
      intro kv _
      by_cases h1 : kv.1 = k
      · have hc : (k :: L).contains kv.1 = true :=
          List.elem_iff.mpr (by simp [h1])
        have hb : (kv.1 != k) = false := by simp [h1]
        rw [hc, hb]
        simp
      · have hb : (kv.1 != k) = true := by simp [h1]
        rw [hb, Bool.and_true]
        have hc : (k :: L).contains kv.1 = L.contains kv.1 := by
          rw [Bool.eq_iff_iff, List.elem_iff, List.elem_iff]
          simp [h1]
        rw [hc]
    simp only [hstep]

/-- Membership in the collected key list of `invalidatePattern`. -/
theorem collected_contains_eq {T : Type} (s : CacheState T)
    (matchesKey : String → Bool) (x : String) :
    ((s.cache.map Prod.fst).filter matchesKey).contains x
      = (matchesKey x && mapContains s.cache x) := by
  rw [Bool.eq_iff_iff]
  constructor
  · intro h
    have hx := List.elem_iff.mp h
    rcases List.mem_filter.mp hx with ⟨hmem, hmk⟩
    rcases List.mem_map.mp hmem with ⟨kv, hkv, hfst⟩
    subst hfst
    refine Bool.and_eq_true_iff.mpr ⟨hmk, ?_⟩
    simp only [mapContains, List.any_eq_true]
    exact ⟨kv, hkv, by simp⟩
  · intro h
    rcases Bool.and_eq_true_iff.mp h with ⟨hmk, hc⟩
    simp only [mapContains, List.any_eq_true] at hc
    rcases hc with ⟨kv, hkv, hx⟩
    have hx' : kv.1 = x := by simpa using hx
    apply List.elem_iff.mpr
    apply List.mem_filter.mpr
    exact ⟨List.mem_map.mpr ⟨kv, hkv, hx'⟩, hmk⟩

/-- **C9**: `invalidatePattern` removes from both tiers exactly the
in-memory entries whose key satisfies the pattern predicate: the
in-memory map keeps precisely its non-matching entries, the durable
mirror loses precisely the keys that both match and exist in memory,
and the counters are untouched.  (The matching keys are collected
before any deletion: the fold runs over the pre-collected list.) -/
theorem C9_pattern_invalidation {T : Type} (s : CacheState T)
    (matchesKey : String → Bool) :
    (CacheManager.invalidatePattern s matchesKey).cache
        = s.cache.filter (fun kv => !(matchesKey kv.1))
    ∧ (CacheManager.invalidatePattern s matchesKey).localStore
        = s.localStore.filter
            (fun kv => !(matchesKey kv.1 && mapContains s.cache kv.1))
    ∧ (CacheManager.invalidatePattern s matchesKey).hitCount = s.hitCount
    ∧ (CacheManager.invalidatePattern s matchesKey).missCount = s.missCount := by
  have hrun : CacheManager.invalidatePattern s matchesKey
      = { s with
            cache := s.cache.filter
              (fun kv => !(((s.cache.map Prod.fst).filter matchesKey).contains kv.1)),
            localStore := s.localStore.filter
              (fun kv => !(((s.cache.map Prod.fst).filter matchesKey).contains kv.1)) } := by
    unfold CacheManager.invalidatePattern
    exact foldl_delete_both _ s
  rw [hrun]
  refine ⟨?_, ?_, rfl, rfl⟩
  · apply List.filter_congr
    intro kv hkv
    have hc : mapContains s.cache kv.1 = true := by
      simp only [mapContains, List.any_eq_true]
      exact ⟨kv, hkv, by simp⟩
    rw [collected_contains_eq, hc, Bool.and_true]
  · apply List.filter_congr
    intro kv _
    rw [collected_contains_eq]

/-! ### C5 — enrichment failure fallback -/

/-- **C5**: on a miss of the aggregate-stats key, if the tez.cool
enrichment source is unreachable — or reachable but yields no usable
yield figures — `getBakersStats` still resolves, substituting the
documented fallback yields 9.73 / 3.24 (the primary TzKT calls are
assumed to answer). -/
theorem C5_enrichment_fallback (s : CacheState BakersStats) (now : Nat)
    (sa da : Option ℚ) (cyC cyT : Cycle) (st : NetworkStats)
    (cycleTry : Except String Cycle) (statsTry : Except String NetworkStats)
    (cc : Except String Cycle)
    (hmiss : (CacheManager.get s now "bakers_stats" GLOBAL_STATS).1 = none)
    (hsa : sa = none ∨ sa = some 0) (hda : da = none ∨ da = some 0) :
    (getBakersStats s now .unreachable cycleTry statsTry (.ok cyC)).1
      = .ok ⟨cyC.totalBakers, cyC.totalBakers, cyC.totalBakingPower,
             defaultStakingApy, defaultStakingApy, defaultDelegationApy⟩
    ∧ (getBakersStats s now (.payload sa da) (.ok cyT) (.ok st) cc).1
      = .ok ⟨cyT.totalBakers, cyT.totalBakers, st.totalFrozen,
             defaultStakingApy, defaultStakingApy, defaultDelegationApy⟩ := by
  have hsa' : jsNumOr sa defaultStakingApy = defaultStakingApy := by
    rcases hsa with h | h <;> simp [h, jsNumOr]
  have hda' : jsNumOr da defaultDelegationApy = defaultDelegationApy := by
    rcases hda with h | h <;> simp [h, jsNumOr]
  constructor
  · simp [getBakersStats, hmiss]
  · simp [getBakersStats, hmiss, hsa', hda']

/-- Concrete exercise of C5: an unreachable tez.cool, and a tez.cool
answer with no staking data, both resolve with the default yields. -/
theorem C5_enrichment_fallback_witness :
    (getBakersStats (initialState BakersStats) 0 .unreachable (.error "down")
        (.error "down") (.ok ⟨400, 5⟩)).1
      = .ok ⟨400, 400, 5, defaultStakingApy, defaultStakingApy,
             defaultDelegationApy⟩
    ∧ (getBakersStats (initialState BakersStats) 0 (.payload none none)
        (.ok ⟨400, 5⟩) (.ok ⟨11⟩) (.error "down")).1
      = .ok ⟨400, 400, 11, defaultStakingApy, defaultStakingApy,
             defaultDelegationApy⟩ :=
  C5_enrichment_fallback (initialState BakersStats) 0 none none ⟨400, 5⟩
    ⟨400, 5⟩ ⟨11⟩ (.error "down") (.error "down") (.error "down") rfl
    (Or.inl rfl) (Or.inl rfl)

/-! ### C7 — cancel-on-supersede in `useBakerDetails` -/

/-- **C7** (failing trace): start a fetch for address `A`, supersede it
with a fetch for `B`, let `B` resolve (the display shows `B`), then let
the superseded `A` response arrive.  The continuation's guard reads
`abortControllerRef.current` — the controller installed by the *latest*
invocation, which was never aborted — so the stale `A` response passes
the guard and overwrites the displayed state: the final display is `A`,
not `B` as the specification (and the code's own comments) require. -/
theorem C7_superseded_response_overwrites :
    (hookRun [.start "A", .start "B", .resolve 1]).baker = some "B"
    ∧ (hookRun [.start "A", .start "B", .resolve 1, .resolve 0]).baker
        = some "A" := by decide

/-! ### C2 — eviction at the size bound -/

/-- Behaviour of the `evictOldest` fold from an arbitrary accumulator:
either no element beats the starting time, and the accumulator survives,
or the result is the first element reaching the minimal timestamp, that
timestamp being strictly below the start and minimal over the list. -/
theorem findOldest_fold_spec {T : Type} (l : List (String × CacheEntry T))
    (k0 : String) (t0 : Nat) :
    (l.foldl (fun acc kv =>
        if kv.2.timestamp < acc.2 then (kv.1, kv.2.timestamp) else acc) (k0, t0)
        = (k0, t0)
      ∧ ∀ kv ∈ l, t0 ≤ kv.2.timestamp)
    ∨ (∃ kv ∈ l,
        l.foldl (fun acc kv =>
          if kv.2.timestamp < acc.2 then (kv.1, kv.2.timestamp) else acc) (k0, t0)
          = (kv.1, kv.2.timestamp)
        ∧ kv.2.timestamp < t0
        ∧ ∀ kv' ∈ l, kv.2.timestamp ≤ kv'.2.timestamp) := by
  induction l generalizing k0 t0 with
  | nil => exact Or.inl ⟨rfl, by simp⟩
  | cons hd tl ih =>
    by_cases hlt : hd.2.timestamp < t0
    · rcases ih hd.1 hd.2.timestamp with ⟨heq, hall⟩ | ⟨kv, hmem, heq, hlt2, hall⟩
      · refine Or.inr ⟨hd, List.mem_cons_self _ _, ?_, hlt, ?_⟩
        · simpa [List.foldl_cons, if_pos hlt] using heq
        · intro kv' hkv'
          rcases List.mem_cons.mp hkv' with h | h
          · subst h; exact le_rfl
          · exact hall kv' h
      · refine Or.inr ⟨kv, List.mem_cons_of_mem _ hmem, ?_, lt_trans hlt2 hlt, ?_⟩
        · simpa [List.foldl_cons, if_pos hlt] using heq
        · intro kv' hkv'
          rcases List.mem_cons.mp hkv' with h | h
          · subst h; exact hlt2.le
          · exact hall kv' h
    · rcases ih k0 t0 with ⟨heq, hall⟩ | ⟨kv, hmem, heq, hlt2, hall⟩
      · refine Or.inl ⟨?_, ?_⟩
        · simpa [List.foldl_cons, if_neg hlt] using heq
        · intro kv' hkv'
          rcases List.mem_cons.mp hkv' with h | h
          · subst h; omega
          · exact hall kv' h
      · refine Or.inr ⟨kv, List.mem_cons_of_mem _ hmem, ?_, hlt2, ?_⟩
        · simpa [List.foldl_cons, if_neg hlt] using heq
        · intro kv' hkv'
          rcases List.mem_cons.mp hkv' with h | h
          · subst h; omega
          · exact hall kv' h

/-- As soon as some entry's timestamp is strictly below `now`,
`findOldest` returns an entry of minimal timestamp. -/
theorem findOldest_min {T : Type} (s : CacheState T) (now : Nat)
    (hold : ∃ kv ∈ s.cache, kv.2.timestamp < now) :
    ∃ kv ∈ s.cache,
      CacheManager.findOldest now s.cache = (kv.1, kv.2.timestamp)
      ∧ ∀ kv' ∈ s.cache, kv.2.timestamp ≤ kv'.2.timestamp := by
  rcases findOldest_fold_spec s.cache "" now with ⟨heq, hall⟩ |
    ⟨kv, hmem, heq, hlt2, hall⟩
  · rcases hold with ⟨kv, hmem, hlt⟩
    exact absurd (hall kv hmem) (by omega)
  · exact ⟨kv, hmem, heq, hall⟩

/-- Under duplicate-free keys, deleting the key of a present entry
shrinks the map by exactly one entry. -/
theorem mapDelete_length_of_mem {T : Type} (l : List (String × T))
    (kv : String × T) (hnodup : (l.map Prod.fst).Nodup) (hmem : kv ∈ l) :
    (mapDelete l kv.1).length + 1 = l.length := by
  induction l with
  | nil => cases hmem
  | cons hd tl ih =>
    rw [List.map_cons, List.nodup_cons] at hnodup
    obtain ⟨hnotin, htl⟩ := hnodup
    rcases List.mem_cons.mp hmem with h | h
    · subst h
      have htleq : mapDelete tl kv.1 = tl := by
        apply List.filter_eq_self.mpr
        intro x hx
        have hne : x.1 ≠ kv.1 := by
          intro hx1
          exact hnotin (hx1 ▸ List.mem_map.mpr ⟨x, hx, rfl⟩)
        simpa using hne
      have hhd : mapDelete (kv :: tl) kv.1 = mapDelete tl kv.1 := by
        simp [mapDelete, List.filter_cons]
      rw [hhd, htleq]
      simp
    · have hne : hd.1 ≠ kv.1 := by
        intro h1
        exact hnotin (h1 ▸ List.mem_map.mpr ⟨kv, h, rfl⟩)
      have hb : (hd.1 != kv.1) = true := by simpa using hne
      have hrec := ih htl h
      have hhd : mapDelete (hd :: tl) kv.1 = hd :: mapDelete tl kv.1 := by
        simp [mapDelete, List.filter_cons, hb]
      rw [hhd]
      simp only [List.length_cons]
      omega

set_option maxRecDepth 100000 in
/-- **C2 counterexample** (the claim as stated): a store of `maxSize`
entries all written in the current millisecond.  `evictOldest` starts
its scan at `oldestTime = Date.now()` with the falsy key `""` and only
updates on a *strictly* smaller timestamp, so nothing is selected,
nothing is evicted, and `set` grows the store to 101 entries — the
original entries all survive. -/
theorem C2_same_millisecond_no_eviction :
    ((⟨(List.range 100).map
        (fun i => (toString i, ⟨i, 5, 1000, toString i⟩)), [], 0, 0⟩ :
        CacheState Nat)).cache.length = maxSize
    ∧ (CacheManager.set
        (⟨(List.range 100).map
          (fun i => (toString i, ⟨i, 5, 1000, toString i⟩)), [], 0, 0⟩ :
          CacheState Nat)
        5 "newkey" 7 ⟨some 1000, false, false⟩).cache.length = 101 := by
  decide

/-- **C2 amended**: when the store holds at least `maxSize` entries,
every key is non-empty, and at least one entry's timestamp lies strictly
before the current time, `set` evicts exactly one entry before
inserting: an entry of minimal timestamp among all current entries
(never a newer one), removed from both the in-memory map and the
durable mirror.  (Without those provisos — e.g. when every entry was
written in the current millisecond — nothing is evicted, as the
counterexample shows.) -/
theorem C2_eviction_of_oldest {T : Type} (s : CacheState T) (now : Nat)
    (key : String) (data : T) (o : CacheOptions)
    (hsize : s.cache.length ≥ maxSize)
    (hkeys : ∀ kv ∈ s.cache, kv.1 ≠ "")
    (hold : ∃ kv ∈ s.cache, kv.2.timestamp < now)
    (hnodup : (s.cache.map Prod.fst).Nodup) :
    ∃ ev ∈ s.cache,
      (∀ kv ∈ s.cache, ev.2.timestamp ≤ kv.2.timestamp)
      ∧ (mapDelete s.cache ev.1).length + 1 = s.cache.length
      ∧ (CacheManager.set s now key data o).cache
          = mapSet (mapDelete s.cache ev.1) key
              ⟨data, now, ttlOrDefault o.ttl, key⟩
      ∧ (CacheManager.set s now key data o).localStore
          = (if o.persistToLocalStorage
             then mapSet (mapDelete s.localStore ev.1) key
                    ⟨data, now, ttlOrDefault o.ttl, key⟩
             else mapDelete s.localStore ev.1) := by
  rcases findOldest_min s now hold with ⟨ev, hmem, heq, hall⟩
  have hkey : ev.1 ≠ "" := hkeys ev hmem
  have hev : CacheManager.evictOldest s now
      = { s with cache := mapDelete s.cache ev.1,
                 localStore := mapDelete s.localStore ev.1 } := by
    unfold CacheManager.evictOldest
    rw [heq]
    simp [hkey]
  have hbranch : (if s.cache.length ≥ maxSize
      then CacheManager.evictOldest s now else s)
      = CacheManager.evictOldest s now := if_pos hsize
  refine ⟨ev, hmem, hall, mapDelete_length_of_mem s.cache ev hnodup hmem,
          ?_, ?_⟩
  · rw [set_cache_eq, hbranch, hev]
  · rw [set_localStore_eq, hbranch, hev]

/-- Concrete exercise of C2 as amended: one hundred distinct non-empty
keys, timestamps `1..100`, read at time 200 — `set` evicts the
timestamp-1 entry from both tiers before inserting. -/
theorem C2_eviction_of_oldest_witness :
    ∃ ev ∈ (⟨(List.range 100).map
        (fun i => ("k" ++ toString i, ⟨i, i + 1, 1000, "k" ++ toString i⟩)),
        [], 0, 0⟩ : CacheState Nat).cache,
      (∀ kv ∈ (⟨(List.range 100).map
        (fun i => ("k" ++ toString i, ⟨i, i + 1, 1000, "k" ++ toString i⟩)),
        [], 0, 0⟩ : CacheState Nat).cache,
          ev.2.timestamp ≤ kv.2.timestamp)
      ∧ (mapDelete (⟨(List.range 100).map
        (fun i => ("k" ++ toString i, ⟨i, i + 1, 1000, "k" ++ toString i⟩)),
        [], 0, 0⟩ : CacheState Nat).cache ev.1).length + 1
          = (⟨(List.range 100).map
        (fun i => ("k" ++ toString i, ⟨i, i + 1, 1000, "k" ++ toString i⟩)),
        [], 0, 0⟩ : CacheState Nat).cache.length
      ∧ (CacheManager.set (⟨(List.range 100).map
        (fun i => ("k" ++ toString i, ⟨i, i + 1, 1000, "k" ++ toString i⟩)),
        [], 0, 0⟩ : CacheState Nat) 200 "fresh" 7
          ⟨some 1000, false, false⟩).cache
          = mapSet (mapDelete (⟨(List.range 100).map
        (fun i => ("k" ++ toString i, ⟨i, i + 1, 1000, "k" ++ toString i⟩)),
        [], 0, 0⟩ : CacheState Nat).cache ev.1) "fresh"
              ⟨7, 200, ttlOrDefault (some 1000), "fresh"⟩
      ∧ (CacheManager.set (⟨(List.range 100).map
        (fun i => ("k" ++ toString i, ⟨i, i + 1, 1000, "k" ++ toString i⟩)),
        [], 0, 0⟩ : CacheState Nat) 200 "fresh" 7
          ⟨some 1000, false, false⟩).localStore
          = (if (⟨some 1000, false, false⟩ : CacheOptions).persistToLocalStorage
             then mapSet (mapDelete (⟨(List.range 100).map
        (fun i => ("k" ++ toString i, ⟨i, i + 1, 1000, "k" ++ toString i⟩)),
        [], 0, 0⟩ : CacheState Nat).localStore ev.1) "fresh"
                    ⟨7, 200, ttlOrDefault (some 1000), "fresh"⟩
             else mapDelete (⟨(List.range 100).map
        (fun i => ("k" ++ toString i, ⟨i, i + 1, 1000, "k" ++ toString i⟩)),
        [], 0, 0⟩ : CacheState Nat).localStore ev.1) :=
  C2_eviction_of_oldest
    (⟨(List.range 100).map
      (fun i => ("k" ++ toString i, ⟨i, i + 1, 1000, "k" ++ toString i⟩)),
      [], 0, 0⟩ : CacheState Nat)
    200 "fresh" 7 ⟨some 1000, false, false⟩
    (by decide) (by decide) (by decide) (by decide)

end TzktCache
